import Mathlib

/-!
Shallow embedding of gem5's `src/base/loader/object_file.hh`: the `ObjectFile`
base class with its `Segment` model, the address-range queries, the default
(base-class) virtual methods, the `Loader` registry dispatch and the raw-blob
branch of the `createObjectFile` factory, together with proofs of the
specification's claims about them.

The C++ `Addr` type is `uint64_t`; it is embedded as `Nat`, with arithmetic
reduced modulo `2 ^ 64` exactly where the C++ arithmetic can wrap (the
`seg->base + seg->size` end-address computations in `maxSegmentAddr` and
`contains`, and the `(base + loadOffset) & loadMask` transform).  Fatal
`panic(...)` calls are embedded as a dedicated `Outcome.fatal` constructor,
distinct from the `Bool` success/failure results the loading operations
return.  Methods whose bodies live in `object_file.cc` (not part of this
repository snapshot) are modelled from the specification; each such
definition carries a doc comment starting with `Modelled from the spec:`.
-/

/-- Modulus of the 64-bit `Addr` type (`uint64_t`), i.e. `2 ^ 64`. -/
def addrMod : Nat := 2 ^ 64

/-- Embeds `ObjectFile::maxAddr = std::numeric_limits<Addr>::max()` (all-ones). -/
def maxAddr : Nat := addrMod - 1

/-- Embeds `enum ObjectFile::Arch` (object_file.hh lines 52-66). -/
inductive Arch where
  | UnknownArch
  | Alpha
  | SPARC64
  | SPARC32
  | Mips
  | X86_64
  | I386
  | Arm64
  | Arm
  | Thumb
  | Power
  | Riscv64
  | Riscv32
  deriving DecidableEq

/-- Embeds `enum ObjectFile::OpSys` (object_file.hh lines 68-75). -/
inductive OpSys where
  | UnknownOpSys
  | Tru64
  | Linux
  | Solaris
  | LinuxArmOABI
  | FreeBSD
  deriving DecidableEq

/-- Embeds `struct ObjectFile::Segment` (object_file.hh lines 120-126): a named
region with a base address, backing bytes (`uint8_t *data` embedded as the list
of bytes it points at) and a size. -/
structure Segment where
  name : String
  base : Nat
  data : List Nat
  size : Nat
  deriving DecidableEq

/-- Embeds the state of `class ObjectFile` (object_file.hh lines 48-222):
filename, owned byte buffer and length, load offset (default 0), load mask
(default `maxAddr`), architecture and OS tags, entry point, and the ordered
segment collection. -/
structure ObjectFile where
  filename : String
  fileData : List Nat
  len : Nat
  loadOffset : Nat := 0
  loadMask : Nat := maxAddr
  arch : Arch
  opSys : OpSys
  entry : Nat
  segments : List Segment
  deriving DecidableEq

/-- Embeds the `ObjectFile` protected constructor (object_file.hh lines 89-90):
it receives filename, length, data, arch and OS; `loadOffset`/`loadMask` take
their in-class initializers (0 and `maxAddr`), and the segment collection
starts empty. -/
def ObjectFile.create (fname : String) (ln : Nat) (d : List Nat)
    (a : Arch) (os : OpSys) : ObjectFile :=
  { filename := fname, fileData := d, len := ln, arch := a, opSys := os,
    entry := 0, segments := [] }

/-- Embeds `ObjectFile::getArch` (object_file.hh line 117). -/
def ObjectFile.getArch (o : ObjectFile) : Arch := o.arch

/-- Embeds `ObjectFile::getOpSys` (object_file.hh line 118). -/
def ObjectFile.getOpSys (o : ObjectFile) : OpSys := o.opSys

/-- Embeds `ObjectFile::entryPoint` (object_file.hh line 147). -/
def ObjectFile.entryPoint (o : ObjectFile) : Nat := o.entry

/-- Embeds `ObjectFile::setLoadOffset` (object_file.hh line 188). -/
def ObjectFile.setLoadOffset (o : ObjectFile) (v : Nat) : ObjectFile :=
  { o with loadOffset := v }

/-- Embeds `ObjectFile::setLoadMask` (object_file.hh line 189). -/
def ObjectFile.setLoadMask (o : ObjectFile) (v : Nat) : ObjectFile :=
  { o with loadMask := v }

/-- Embeds `ObjectFile::addSegment` (object_file.hh lines 133-142):
`emplace_back` appends the new segment at the end of the collection. -/
def ObjectFile.addSegment (o : ObjectFile) (nm : String) (b : Nat)
    (d : List Nat) (sz : Nat) : ObjectFile :=
  { o with segments := o.segments ++ [{ name := nm, base := b, data := d, size := sz }] }

/-- Embeds `ObjectFile::relocatable` (object_file.hh line 108), the base-class
default: `return false`. -/
def ObjectFile.relocatable (_ : ObjectFile) : Bool := false

/-- Embeds `ObjectFile::bias` (object_file.hh line 113), the base-class
default: `return 0`. -/
def ObjectFile.bias (_ : ObjectFile) : Nat := 0

/-- Embeds `ObjectFile::hasTLS` (object_file.hh line 115), the base-class
default: `return false`. -/
def ObjectFile.hasTLS (_ : ObjectFile) : Bool := false

/-- Embeds `ObjectFile::getInterpreter` (object_file.hh line 107), the
base-class default: `return nullptr`. -/
def ObjectFile.getInterpreter (_ : ObjectFile) : Option ObjectFile := none

/-- Result of an operation that either returns a value or aborts fatally via
`panic(...)` from `base/logging.hh`.  A `fatal` outcome is an unrecoverable
abort carrying the panic message; it is distinct from a recoverable `Bool`
failure result. -/
inductive Outcome (α : Type) where
  | ok (a : α)
  | fatal (msg : String)
  deriving DecidableEq

/-- Embeds `ObjectFile::mapSize` (object_file.hh lines 109-110), the base-class
default: an unconditional `panic("mapSize() should only be called on
relocatable objects\n")`. -/
def ObjectFile.mapSize (_ : ObjectFile) : Outcome Nat :=
  Outcome.fatal "mapSize() should only be called on relocatable objects\n"

/-- Embeds `ObjectFile::updateBias` (object_file.hh lines 111-112), the
base-class default: an unconditional `panic("updateBias() should only be
called on relocatable objects\n")`. -/
def ObjectFile.updateBias (_ : ObjectFile) (_ : Nat) : Outcome ObjectFile :=
  Outcome.fatal "updateBias() should only be called on relocatable objects\n"

/-- Embeds the symbol-table collaborator (`SymbolTable *`): a collection of
name-to-address entries, consumed through insertion. -/
abbrev SymbolTable : Type := List (String × Nat)

/-- Embeds `ObjectFile::loadWeakSymbols` (object_file.hh lines 103-105), the
base-class default: `{ return false; }`.  The result carries the `Bool` return
value together with the (unchanged) symbol table and the (unchanged) object
file state, so that absence of side effects is expressible. -/
def ObjectFile.loadWeakSymbols (o : ObjectFile) (symtab : SymbolTable)
    (_base _offset _mask : Nat) : Bool × SymbolTable × ObjectFile :=
  (false, symtab, o)

/-- Embeds the body of the loop in `ObjectFile::maxSegmentAddr`
(object_file.hh lines 149-159): running maximum of the wrapped end addresses
`seg->base + seg->size` (`Addr` arithmetic, hence modulo `2 ^ 64`). -/
def maxSegAux : Nat → List Segment → Nat
  | acc, [] => acc
  | acc, seg :: rest =>
      maxSegAux (if (seg.base + seg.size) % addrMod > acc
                 then (seg.base + seg.size) % addrMod else acc) rest

/-- Embeds `ObjectFile::maxSegmentAddr` (object_file.hh lines 149-159):
the maximum over all segments of the wrapped end address, starting from 0. -/
def ObjectFile.maxSegmentAddr (o : ObjectFile) : Nat :=
  maxSegAux 0 o.segments

/-- Embeds the body of the loop in `ObjectFile::minSegmentAddr`
(object_file.hh lines 161-169): running minimum of the segment bases. -/
def minSegAux : Nat → List Segment → Nat
  | acc, [] => acc
  | acc, seg :: rest =>
      minSegAux (if seg.base < acc then seg.base else acc) rest

/-- Embeds `ObjectFile::minSegmentAddr` (object_file.hh lines 161-169):
the minimum over all segments of the base address, starting from `maxAddr`. -/
def ObjectFile.minSegmentAddr (o : ObjectFile) : Nat :=
  minSegAux maxAddr o.segments

/-- Embeds the per-segment test inside the loop of `ObjectFile::contains`
(object_file.hh lines 174-179): `addr >= start && addr < end` with
`end = seg->base + seg->size` in `Addr` (wrapping) arithmetic. -/
def segMatch (seg : Segment) (addr : Nat) : Bool :=
  decide (seg.base ≤ addr) && decide (addr < (seg.base + seg.size) % addrMod)

/-- Embeds `ObjectFile::contains` (object_file.hh lines 171-181): the loop
returns `true` at the first segment whose test succeeds, `false` if none
does, i.e. `any` over the segment collection. -/
def ObjectFile.contains (o : ObjectFile) (addr : Nat) : Bool :=
  o.segments.any (fun seg => segMatch seg addr)

/-- The address transform applied when a segment is loaded:
`(segment.base + loadOffset) & loadMask` in `Addr` arithmetic. -/
def transformedAddr (o : ObjectFile) (seg : Segment) : Nat :=
  ((seg.base + o.loadOffset) % addrMod) &&& o.loadMask

/-- Embeds the memory-sink collaborator (`const PortProxy &`): the sink is
consulted with a transformed start address and a byte count and either accepts
the write or rejects that address range. -/
structure PortProxy where
  accepts : Nat → Nat → Bool

/-- A record of the writes issued to the memory sink: pairs of a start
address and the bytes written there, in issue order. -/
abbrev WriteLog : Type := List (Nat × List Nat)

/-- Modelled from the spec: the body of `ObjectFile::loadSegment`
(declared at object_file.hh line 144, defined in object_file.cc which is not
part of this snapshot).  Per spec section 4.2, it writes the segment's bytes
into the memory sink at `(segment.base + loadOffset) & loadMask`; a segment
whose transformed address range cannot be accepted by the sink is a reported
(`Bool`) failure, not a fatal abort. -/
def ObjectFile.loadSegment (o : ObjectFile) (sink : PortProxy)
    (seg : Segment) : Bool × WriteLog :=
  if sink.accepts (transformedAddr o seg) seg.size
  then (true, [(transformedAddr o seg, seg.data.take seg.size)])
  else (false, [])

/-- Modelled from the spec: the segment loop of `ObjectFile::loadSegments`
over an explicit segment list; a rejected segment yields an overall reported
failure. -/
def loadSegsAux (o : ObjectFile) (sink : PortProxy) :
    List Segment → Bool × WriteLog
  | [] => (true, [])
  | seg :: rest =>
      match o.loadSegment sink seg with
      | (true, w) => ((loadSegsAux o sink rest).1, w ++ (loadSegsAux o sink rest).2)
      | (false, w) => (false, w)

/-- Modelled from the spec: the body of `ObjectFile::loadSegments`
(declared at object_file.hh line 95, defined in object_file.cc which is not
part of this snapshot).  Per spec section 4.2, it writes every segment's bytes
into the sink at the transformed address and returns success or a reported
failure.  The result carries the success flag and the log of issued writes. -/
def ObjectFile.loadSegments (o : ObjectFile) (sink : PortProxy) : Bool × WriteLog :=
  loadSegsAux o sink o.segments

/-- Embeds the three-way outcome of offering an object file to one loader:
the loader either accepts (returning a constructed `Process`, embedded
abstractly as a value of type `π`) or silently declines (`nullptr`). -/
inductive LoadResult (π : Type) where
  | accepted (p : π)
  | declined
  deriving DecidableEq

/-- Embeds `class ObjectFile::Loader` (object_file.hh lines 197-217): a
strategy whose `load` method returns a constructed `Process` when compatible
and declines (`nullptr`) otherwise.  `ρ` embeds `ProcessParams *` and `π`
embeds `Process *`. -/
structure Loader (ρ π : Type) where
  load : ρ → ObjectFile → LoadResult π

/-- Modelled from the spec: the loop of `ObjectFile::tryLoaders`
(declared at object_file.hh lines 219-221, defined in object_file.cc which is
not part of this snapshot).  Per spec section 4.3, the registered loaders are
invoked in registration order; the first accepted result is returned
immediately.  The second component counts how many loaders were invoked. -/
def tryLoadersAux {ρ π : Type} : List (Loader ρ π) → ρ → ObjectFile →
    Except String π × Nat
  | [], _, _ => (Except.error "no compatible loader", 0)
  | l :: rest, params, obj =>
      match l.load params obj with
      | LoadResult.accepted p => (Except.ok p, 1)
      | LoadResult.declined =>
          ((tryLoadersAux rest params obj).1, (tryLoadersAux rest params obj).2 + 1)

/-- Modelled from the spec: `ObjectFile::tryLoaders` over an explicit registry
list (registration order = list order).  Returns the first accepting loader's
`Process`, or the reported error "no compatible loader" if every loader
declines, together with the number of loaders that were invoked. -/
def tryLoaders {ρ π : Type} (registry : List (Loader ρ π)) (params : ρ)
    (obj : ObjectFile) : Except String π × Nat :=
  tryLoadersAux registry params obj

/-- Modelled from the spec: the raw-blob branch of `createObjectFile`
(declared at object_file.hh line 231, defined in object_file.cc which is not
part of this snapshot).  Per spec section 4.1, with the raw flag set, format
detection is skipped and a minimal `ObjectFile` is built with
architecture/OS = unknown and a single segment covering the whole buffer at
base address 0. -/
def createObjectFileRaw (fname : String) (d : List Nat) : ObjectFile :=
  { filename := fname, fileData := d, len := d.length,
    arch := Arch.UnknownArch, opSys := OpSys.UnknownOpSys, entry := 0,
    segments := [{ name := fname, base := 0, data := d, size := d.length }] }

/-! ## Helper lemmas -/

theorem mod_addrMod_eq_of_le (n : Nat) (h : n ≤ maxAddr) : n % addrMod = n := by
  apply Nat.mod_eq_of_lt
  simp only [maxAddr, addrMod] at h ⊢
  omega

theorem mod_addrMod_of_overflow (a b : Nat) (ha : a ≤ maxAddr) (hb : b ≤ maxAddr)
    (hov : maxAddr < a + b) :
    (a + b) % addrMod = a + b - addrMod ∧ (a + b) % addrMod < a := by
  simp only [maxAddr, addrMod] at *
  omega

theorem maxSegAux_acc_le (l : List Segment) : ∀ acc : Nat, acc ≤ maxSegAux acc l := by
  induction l with
  | nil => intro acc; exact Nat.le_refl acc
  | cons s rest ih =>
      intro acc
      simp only [maxSegAux]
      exact Nat.le_trans (by split <;> omega) (ih _)

theorem maxSegAux_le_of_mem (l : List Segment) (seg : Segment) (h : seg ∈ l) :
    ∀ acc : Nat, (seg.base + seg.size) % addrMod ≤ maxSegAux acc l := by
  induction l with
  | nil => cases h
  | cons s rest ih =>
      intro acc
      simp only [maxSegAux]
      rcases List.mem_cons.mp h with rfl | hmem
      · exact Nat.le_trans (by split <;> omega) (maxSegAux_acc_le rest _)
      · exact ih hmem _

theorem minSegAux_le_acc (l : List Segment) : ∀ acc : Nat, minSegAux acc l ≤ acc := by
  induction l with
  | nil => intro acc; exact Nat.le_refl acc
  | cons s rest ih =>
      intro acc
      simp only [minSegAux]
      exact Nat.le_trans (ih _) (by split <;> omega)

theorem minSegAux_le_of_mem (l : List Segment) (seg : Segment) (h : seg ∈ l) :
    ∀ acc : Nat, minSegAux acc l ≤ seg.base := by
  induction l with
  | nil => cases h
  | cons s rest ih =>
      intro acc
      simp only [minSegAux]
      rcases List.mem_cons.mp h with rfl | hmem
      · exact Nat.le_trans (minSegAux_le_acc rest _) (by split <;> omega)
      · exact ih hmem _

theorem segMatch_false_of_overflow (s : Segment) (addr : Nat) (hb : s.base ≤ maxAddr)
    (hs : s.size ≤ maxAddr) (hov : maxAddr < s.base + s.size) :
    segMatch s addr = false := by
  have hw := (mod_addrMod_of_overflow s.base s.size hb hs hov).2
  by_cases hle : s.base ≤ addr
  · have hnlt : ¬ addr < (s.base + s.size) % addrMod := by omega
    simp [segMatch, hnlt]
  · simp [segMatch, hle]

theorem loadSegsAux_ok_iff (o : ObjectFile) (sink : PortProxy) (l : List Segment) :
    (loadSegsAux o sink l).1 = true ↔
      ∀ seg ∈ l, sink.accepts (transformedAddr o seg) seg.size = true := by
  induction l with
  | nil => simp [loadSegsAux]
  | cons s rest ih =>
      cases hacc : sink.accepts (transformedAddr o s) s.size with
      | true =>
          simp [loadSegsAux, ObjectFile.loadSegment, hacc, ih, List.forall_mem_cons]
      | false =>
          simp [loadSegsAux, ObjectFile.loadSegment, hacc, List.forall_mem_cons]

theorem loadSegsAux_log (o : ObjectFile) (sink : PortProxy) (l : List Segment)
    (h : ∀ seg ∈ l, sink.accepts (transformedAddr o seg) seg.size = true) :
    (loadSegsAux o sink l).2 =
      l.map (fun seg => (transformedAddr o seg, seg.data.take seg.size)) := by
  induction l with
  | nil => rfl
  | cons s rest ih =>
      have hacc := h s (List.mem_cons_self _ _)
      simp [loadSegsAux, ObjectFile.loadSegment, hacc,
            ih (fun seg hm => h seg (List.mem_cons_of_mem _ hm))]

theorem tryLoadersAux_first_accept {ρ π : Type} (params : ρ) (obj : ObjectFile)
    (pre : List (Loader ρ π)) (l : Loader ρ π) (post : List (Loader ρ π)) (p : π)
    (hpre : ∀ l' ∈ pre, l'.load params obj = LoadResult.declined)
    (hacc : l.load params obj = LoadResult.accepted p) :
    tryLoadersAux (pre ++ l :: post) params obj = (Except.ok p, pre.length + 1) := by
  induction pre with
  | nil => simp [tryLoadersAux, hacc]
  | cons l0 rest ih =>
      have h0 := hpre l0 (List.mem_cons_self _ _)
      simp [tryLoadersAux, h0,
            ih (fun l' hm => hpre l' (List.mem_cons_of_mem _ hm))]

theorem tryLoadersAux_all_decline {ρ π : Type} (params : ρ) (obj : ObjectFile)
    (ls : List (Loader ρ π))
    (h : ∀ l ∈ ls, l.load params obj = LoadResult.declined) :
    tryLoadersAux ls params obj = (Except.error "no compatible loader", ls.length) := by
  induction ls with
  | nil => rfl
  | cons l0 rest ih =>
      have h0 := h l0 (List.mem_cons_self _ _)
      simp [tryLoadersAux, h0, ih (fun l hm => h l (List.mem_cons_of_mem _ hm))]

/-! ## Claim theorems -/

/-- C1: for every Object File and every memory sink, `loadSegments` succeeds
exactly when the sink accepts every segment's transformed address range; on
success the sink receives each segment's bytes at the transformed address
`(segment.base + loadOffset) & loadMask`; a segment whose transformed address
range is rejected by the sink yields the reported failure result `false`
(a returned value, not a fatal abort). -/
theorem loadSegments_writes_and_reports (o : ObjectFile) (sink : PortProxy) :
    ((o.loadSegments sink).1 = true ↔
      ∀ seg ∈ o.segments, sink.accepts (transformedAddr o seg) seg.size = true)
    ∧ ((∀ seg ∈ o.segments, sink.accepts (transformedAddr o seg) seg.size = true) →
      (o.loadSegments sink).2 =
        o.segments.map (fun seg => (transformedAddr o seg, seg.data.take seg.size))) :=
  ⟨loadSegsAux_ok_iff o sink o.segments, loadSegsAux_log o sink o.segments⟩

/-- Object file used by the witness of `loadSegments_writes_and_reports`. -/
def oW1 : ObjectFile :=
  { filename := "w1", fileData := [1, 2, 3], len := 3, loadOffset := 16,
    arch := Arch.UnknownArch, opSys := OpSys.UnknownOpSys, entry := 0,
    segments := [{ name := "a", base := 0, data := [1, 2], size := 2 },
                 { name := "b", base := 8, data := [3], size := 1 }] }

/-- Memory sink that accepts every address range. -/
def sinkAll : PortProxy := { accepts := fun _ _ => true }

/-- Witness for `loadSegments_writes_and_reports` at a concrete object file
and sink. -/
theorem loadSegments_writes_and_reports_witness :
    (∀ seg ∈ oW1.segments, sinkAll.accepts (transformedAddr oW1 seg) seg.size = true)
    ∧ (oW1.loadSegments sinkAll).2 =
        oW1.segments.map (fun seg => (transformedAddr oW1 seg, seg.data.take seg.size)) :=
  ⟨by decide, (loadSegments_writes_and_reports oW1 sinkAll).2 (by decide)⟩

/-- C2: `tryLoaders` invokes the registered loaders in registration order and
returns the Process of the first accepting loader, having invoked exactly the
loaders up to and including it (later loaders are never invoked); if every
loader declines it fails with the reported error "no compatible loader" after
invoking all of them. -/
theorem tryLoaders_first_accept_or_error {ρ π : Type} (params : ρ)
    (obj : ObjectFile) (registry pre post : List (Loader ρ π)) (l : Loader ρ π)
    (p : π) :
    (registry = pre ++ l :: post →
      (∀ l' ∈ pre, l'.load params obj = LoadResult.declined) →
      l.load params obj = LoadResult.accepted p →
      tryLoaders registry params obj = (Except.ok p, pre.length + 1))
    ∧ ((∀ l' ∈ registry, l'.load params obj = LoadResult.declined) →
      tryLoaders registry params obj =
        (Except.error "no compatible loader", registry.length)) := by
  constructor
  · intro hreg hpre hacc
    rw [hreg]
    exact tryLoadersAux_first_accept params obj pre l post p hpre hacc
  · intro hall
    exact tryLoadersAux_all_decline params obj registry hall

/-- Registry entry that always declines. -/
def ldrDecl : Loader Unit Nat := { load := fun _ _ => LoadResult.declined }

/-- Registry entry that always accepts with process 1. -/
def ldrAcc1 : Loader Unit Nat := { load := fun _ _ => LoadResult.accepted 1 }

/-- Registry entry that always accepts with process 2. -/
def ldrAcc2 : Loader Unit Nat := { load := fun _ _ => LoadResult.accepted 2 }

/-- Object file used by the witness of `tryLoaders_first_accept_or_error`. -/
def oW2 : ObjectFile := ObjectFile.create "w2" 0 [] Arch.UnknownArch OpSys.UnknownOpSys

/-- Witness for `tryLoaders_first_accept_or_error`: with registry
`[decline, accept 1, accept 2]` dispatch yields process 1 after invoking two
loaders (the third is never invoked), and an all-declining registry yields the
reported "no compatible loader" error. -/
theorem tryLoaders_first_accept_or_error_witness :
    tryLoaders [ldrDecl, ldrAcc1, ldrAcc2] () oW2 = (Except.ok 1, 2)
    ∧ tryLoaders [ldrDecl] () oW2 = (Except.error "no compatible loader", 1) :=
  ⟨(tryLoaders_first_accept_or_error () oW2 [ldrDecl, ldrAcc1, ldrAcc2]
      [ldrDecl] [ldrAcc2] ldrAcc1 1).1 rfl
      (by intro l' hl'; rw [List.mem_singleton] at hl'; subst hl'; rfl) rfl,
   (tryLoaders_first_accept_or_error () oW2 [ldrDecl] [] [] ldrDecl 1).2
      (by intro l' hl'; rw [List.mem_singleton] at hl'; subst hl'; rfl)⟩

/-- C3: on the (non-relocatable) base Object File, `relocatable()` is false
and both `mapSize()` and `updateBias()` are fatal panics carrying the
contract-violation message, not recoverable error results. -/
theorem mapSize_updateBias_fatal_on_nonrelocatable (o : ObjectFile) (a : Nat) :
    o.relocatable = false
    ∧ o.mapSize = Outcome.fatal "mapSize() should only be called on relocatable objects\n"
    ∧ o.updateBias a =
        Outcome.fatal "updateBias() should only be called on relocatable objects\n" :=
  ⟨rfl, rfl, rfl⟩

/-- Object file whose single segment's end address overflows the 64-bit
address type; counterexample input for the literal reading of C4. -/
def oC4 : ObjectFile :=
  { filename := "c4", fileData := [0, 0], len := 2,
    arch := Arch.UnknownArch, opSys := OpSys.UnknownOpSys, entry := 0,
    segments := [{ name := "s", base := maxAddr, data := [0, 0], size := 2 }] }

/-- Counterexample for C4 as literally stated: for the segment with
`base = maxAddr` and `size = 2`, the address `maxAddr` lies in the
mathematical half-open interval `[base, base + size)`, yet `contains`
returns false because the end address `base + size` wraps modulo `2 ^ 64`. -/
theorem contains_interval_counterexample :
    ¬ ((ObjectFile.contains oC4 maxAddr = true) ↔
        ∃ seg ∈ oC4.segments, seg.base ≤ maxAddr ∧ maxAddr < seg.base + seg.size) := by
  decide

/-- C4 (amended): provided no segment's end address `base + size` exceeds
`maxAddr` (in which case it would wrap modulo `2 ^ 64`), `contains(addr)`
returns true iff some segment's half-open interval `[base, base + size)`
contains `addr`, with no load offset or mask applied. -/
theorem contains_iff_interval_no_overflow (o : ObjectFile) (addr : Nat)
    (h : ∀ seg ∈ o.segments, seg.base + seg.size ≤ maxAddr) :
    o.contains addr = true ↔
      ∃ seg ∈ o.segments, seg.base ≤ addr ∧ addr < seg.base + seg.size := by
  unfold ObjectFile.contains
  rw [List.any_eq_true]
  constructor
  · rintro ⟨seg, hmem, hm⟩
    refine ⟨seg, hmem, ?_⟩
    rw [segMatch, mod_addrMod_eq_of_le _ (h seg hmem)] at hm
    simpa using hm
  · rintro ⟨seg, hmem, h1, h2⟩
    refine ⟨seg, hmem, ?_⟩
    rw [segMatch, mod_addrMod_eq_of_le _ (h seg hmem)]
    simp [h1, h2]

/-- Object file used by the witness of `contains_iff_interval_no_overflow`. -/
def oW4 : ObjectFile :=
  { filename := "w4", fileData := [5, 6], len := 2,
    arch := Arch.UnknownArch, opSys := OpSys.UnknownOpSys, entry := 0,
    segments := [{ name := "s", base := 4, data := [5, 6], size := 2 }] }

/-- Witness for `contains_iff_interval_no_overflow` at a concrete object file
and address. -/
theorem contains_iff_interval_no_overflow_witness :
    (∀ seg ∈ oW4.segments, seg.base + seg.size ≤ maxAddr)
    ∧ (oW4.contains 5 = true ↔
        ∃ seg ∈ oW4.segments, seg.base ≤ 5 ∧ 5 < seg.base + seg.size) :=
  ⟨by decide, contains_iff_interval_no_overflow oW4 5 (by decide)⟩

/-- Object file whose single segment's end address overflows the 64-bit
address type; counterexample input for the literal reading of C5. -/
def oC5 : ObjectFile :=
  { filename := "c5", fileData := [0, 0], len := 2,
    arch := Arch.UnknownArch, opSys := OpSys.UnknownOpSys, entry := 0,
    segments := [{ name := "s", base := maxAddr, data := [0, 0], size := 2 }] }

/-- Counterexample for C5 as literally stated: for the segment with
`base = maxAddr` and `size = 2`, `maxSegmentAddr()` returns the wrapped end
address 1, so `segment.base + segment.size ≤ maxSegmentAddr()` fails. -/
theorem segment_bounds_counterexample :
    ¬ ∀ seg ∈ oC5.segments,
        oC5.minSegmentAddr ≤ seg.base ∧ seg.base + seg.size ≤ oC5.maxSegmentAddr := by
  decide

/-- C5 (amended): for every segment of an Object File,
`minSegmentAddr() ≤ segment.base` holds unconditionally (the query does no
address arithmetic); and provided that segment's end address `base + size`
does not exceed `maxAddr` (in which case it would wrap modulo `2 ^ 64`), also
`segment.base + segment.size ≤ maxSegmentAddr()`; no load offset or mask is
applied by either query. -/
theorem segment_bounds_no_overflow (o : ObjectFile) (seg : Segment)
    (hmem : seg ∈ o.segments) :
    o.minSegmentAddr ≤ seg.base
    ∧ (seg.base + seg.size ≤ maxAddr →
        seg.base + seg.size ≤ o.maxSegmentAddr) := by
  constructor
  · exact minSegAux_le_of_mem o.segments seg hmem maxAddr
  · intro h
    have hle := maxSegAux_le_of_mem o.segments seg hmem 0
    rwa [mod_addrMod_eq_of_le _ h] at hle

/-- Segment used by the witness of `segment_bounds_no_overflow`. -/
def segW5 : Segment := { name := "s", base := 4, data := [5, 6], size := 2 }

/-- Object file used by the witness of `segment_bounds_no_overflow`. -/
def oW5 : ObjectFile :=
  { filename := "w5", fileData := [5, 6], len := 2,
    arch := Arch.UnknownArch, opSys := OpSys.UnknownOpSys, entry := 0,
    segments := [segW5] }

/-- Witness for `segment_bounds_no_overflow` at a concrete object file and
segment: the membership hypothesis and the implication's no-overflow premise
are discharged on concrete values. -/
theorem segment_bounds_no_overflow_witness :
    segW5 ∈ oW5.segments
    ∧ oW5.minSegmentAddr ≤ segW5.base
    ∧ segW5.base + segW5.size ≤ maxAddr
    ∧ segW5.base + segW5.size ≤ oW5.maxSegmentAddr :=
  ⟨by decide, (segment_bounds_no_overflow oW5 segW5 (by decide)).1, by decide,
   (segment_bounds_no_overflow oW5 segW5 (by decide)).2 (by decide)⟩

/-- C6: for every input buffer, the raw-blob branch of `createObjectFile`
yields an Object File whose architecture and OS tags are unknown, whose length
is the input length, and whose segment collection is exactly one Segment with
base 0 and size equal to the input length. -/
theorem createObjectFileRaw_unknown_single_segment (fname : String) (d : List Nat) :
    (createObjectFileRaw fname d).arch = Arch.UnknownArch
    ∧ (createObjectFileRaw fname d).opSys = OpSys.UnknownOpSys
    ∧ (createObjectFileRaw fname d).len = d.length
    ∧ (createObjectFileRaw fname d).segments =
        [{ name := fname, base := 0, data := d, size := d.length }] :=
  ⟨rfl, rfl, rfl, rfl⟩

/-- C7: the base-class default `loadWeakSymbols` returns the failure result
`false`, inserts nothing into the supplied symbol table, and leaves the
Object File's state unchanged. -/
theorem loadWeakSymbols_default_fails_no_side_effects (o : ObjectFile)
    (st : SymbolTable) (b off m : Nat) :
    o.loadWeakSymbols st b off m = (false, st, o) :=
  rfl

/-- C8: the architecture and OS tags are fixed at construction: `getArch` and
`getOpSys` return the values supplied to the constructor, and every
state-changing public operation (`setLoadOffset`, `setLoadMask`, `addSegment`,
`loadWeakSymbols`) leaves them unchanged. -/
theorem arch_opsys_immutable (fname : String) (ln : Nat) (d dat : List Nat)
    (a : Arch) (os : OpSys) (o : ObjectFile) (v b sz off m : Nat) (nm : String)
    (st : SymbolTable) :
    (ObjectFile.create fname ln d a os).getArch = a
    ∧ (ObjectFile.create fname ln d a os).getOpSys = os
    ∧ (o.setLoadOffset v).getArch = o.getArch
    ∧ (o.setLoadOffset v).getOpSys = o.getOpSys
    ∧ (o.setLoadMask v).getArch = o.getArch
    ∧ (o.setLoadMask v).getOpSys = o.getOpSys
    ∧ (o.addSegment nm b dat sz).getArch = o.getArch
    ∧ (o.addSegment nm b dat sz).getOpSys = o.getOpSys
    ∧ (o.loadWeakSymbols st b off m).2.2.getArch = o.getArch
    ∧ (o.loadWeakSymbols st b off m).2.2.getOpSys = o.getOpSys :=
  ⟨rfl, rfl, rfl, rfl, rfl, rfl, rfl, rfl, rfl, rfl⟩

/-- C9: on an Object File with no segments, `minSegmentAddr()` returns the
all-ones maximum representable address, `maxSegmentAddr()` returns 0 (hence
`maxSegmentAddr() < minSegmentAddr()`), and `contains(addr)` is false for
every address. -/
theorem empty_segments_behavior (o : ObjectFile) (h : o.segments = []) :
    o.minSegmentAddr = maxAddr
    ∧ o.maxSegmentAddr = 0
    ∧ o.maxSegmentAddr < o.minSegmentAddr
    ∧ ∀ addr : Nat, o.contains addr = false := by
  unfold ObjectFile.minSegmentAddr ObjectFile.maxSegmentAddr ObjectFile.contains
  rw [h]
  refine ⟨rfl, rfl, ?_, fun addr => rfl⟩
  show maxSegAux 0 [] < minSegAux maxAddr []
  simp only [maxSegAux, minSegAux, maxAddr, addrMod]
  omega

/-- Object file used by the witness of `empty_segments_behavior`. -/
def oW9 : ObjectFile := ObjectFile.create "w9" 0 [] Arch.UnknownArch OpSys.UnknownOpSys

/-- Witness for `empty_segments_behavior` at a concrete segment-less object
file. -/
theorem empty_segments_behavior_witness :
    oW9.segments = []
    ∧ oW9.minSegmentAddr = maxAddr
    ∧ oW9.maxSegmentAddr = 0
    ∧ oW9.maxSegmentAddr < oW9.minSegmentAddr
    ∧ oW9.contains 0 = false :=
  ⟨rfl, (empty_segments_behavior oW9 rfl).1, (empty_segments_behavior oW9 rfl).2.1,
   (empty_segments_behavior oW9 rfl).2.2.1, (empty_segments_behavior oW9 rfl).2.2.2 0⟩

/-- C10: the end address `base + size` used by `maxSegmentAddr` and `contains`
wraps modulo `2 ^ 64`; for a segment whose true `base + size` exceeds
`maxAddr`, the wrapped end is smaller than `base` (and is what
`maxSegmentAddr` reports), the segment's containment test is false for every
address at or above `base` (all of which lie inside the segment's true range),
and an object file all of whose segments overflow this way contains no
address at all. -/
theorem wrapped_end_overflow_behavior (o : ObjectFile) (seg : Segment)
    (_hmem : seg ∈ o.segments) (hb : seg.base ≤ maxAddr) (hs : seg.size ≤ maxAddr)
    (hov : maxAddr < seg.base + seg.size) :
    (seg.base + seg.size) % addrMod < seg.base
    ∧ (o.segments = [seg] → o.maxSegmentAddr = (seg.base + seg.size) % addrMod)
    ∧ (∀ addr : Nat, seg.base ≤ addr → segMatch seg addr = false)
    ∧ ((∀ s ∈ o.segments, s.base ≤ maxAddr ∧ s.size ≤ maxAddr ∧ maxAddr < s.base + s.size) →
        ∀ addr : Nat, o.contains addr = false) := by
  refine ⟨(mod_addrMod_of_overflow seg.base seg.size hb hs hov).2, ?_, ?_, ?_⟩
  · intro hseg
    unfold ObjectFile.maxSegmentAddr
    rw [hseg]
    simp only [maxSegAux]
    split <;> omega
  · intro addr _
    exact segMatch_false_of_overflow seg addr hb hs hov
  · intro hall addr
    unfold ObjectFile.contains
    rw [List.any_eq_false]
    intro s hsmem
    have h := hall s hsmem
    simp [segMatch_false_of_overflow s addr h.1 h.2.1 h.2.2]

/-- Segment whose end address overflows, used by the witness of
`wrapped_end_overflow_behavior`. -/
def segW10 : Segment := { name := "s", base := maxAddr, data := [0, 0], size := 2 }

/-- Object file used by the witness of `wrapped_end_overflow_behavior`. -/
def oW10 : ObjectFile :=
  { filename := "w10", fileData := [0, 0], len := 2,
    arch := Arch.UnknownArch, opSys := OpSys.UnknownOpSys, entry := 0,
    segments := [segW10] }

/-- Witness for `wrapped_end_overflow_behavior` at a concrete overflowing
segment: the wrapped end is 1, `maxSegmentAddr` reports it, and `contains`
rejects every address. -/
theorem wrapped_end_overflow_behavior_witness :
    (segW10 ∈ oW10.segments ∧ segW10.base ≤ maxAddr ∧ segW10.size ≤ maxAddr
      ∧ maxAddr < segW10.base + segW10.size)
    ∧ (segW10.base + segW10.size) % addrMod < segW10.base
    ∧ oW10.maxSegmentAddr = (segW10.base + segW10.size) % addrMod
    ∧ segMatch segW10 maxAddr = false
    ∧ oW10.contains 0 = false := by
  have h := wrapped_end_overflow_behavior oW10 segW10 (by decide) (by decide)
    (by decide) (by decide)
  exact ⟨⟨by decide, by decide, by decide, by decide⟩, h.1, h.2.1 rfl,
    h.2.2.1 maxAddr (by decide), h.2.2.2 (by decide) 0⟩
